import Mathlib

/-!
Shallow embedding of `generate_tone` from
`src/healthvis-mobile/generate_tones.py`.

The Python routine builds a sine tone with numpy:

    num_samples = int(sample_rate * duration)
    t = np.linspace(0, duration, num_samples, endpoint=False)
    audio = np.sin(2 * np.pi * frequency * t)
    fade_samples = int(sample_rate * fade_duration)
    if fade_samples > 0:
        fade_in = np.linspace(0, 1, fade_samples)
        audio[:fade_samples] *= fade_in
        fade_out = np.linspace(1, 0, fade_samples)
        audio[-fade_samples:] *= fade_out
    audio = (audio * 32767).astype(np.int16)
    return audio

Floating point is idealised as real arithmetic.  Library failure modes are
made explicit: `np.linspace` with a negative count raises `ValueError`, and
the in-place products `audio[:F] *= fade_in`, `audio[-F:] *= fade_out`
raise a broadcasting `ValueError` whenever `F > num_samples`; those paths
are modelled as `none`.  Python `int(x)` and the C-style cast performed by
`astype(np.int16)` both truncate a real toward zero, which is `pyInt`.
-/

namespace ToneGen

open Real

/-- Truncation toward zero: the semantics of Python `int(x)` on a float and
of numpy `astype(np.int16)` for in-range values. -/
noncomputable def pyInt (x : ℝ) : ℤ := if 0 ≤ x then ⌊x⌋ else ⌈x⌉

/-- Numpy `np.linspace(0, stop, num, endpoint=False)`: `num` points starting
at 0 with step `stop / num`. -/
noncomputable def linspaceEF (stop : ℝ) (num : ℕ) : List ℝ :=
  (List.range num).map fun (i : ℕ) => (i : ℝ) * (stop / num)

/-- Numpy `np.linspace(a, b, num)` with the default `endpoint=True`: for
`num ≥ 2` the step is `(b - a)/(num - 1)`; `num = 1` yields `[a]`. -/
noncomputable def linspaceIncl (a b : ℝ) (num : ℕ) : List ℝ :=
  if num = 1 then [a]
  else (List.range num).map fun (j : ℕ) => a + (j : ℝ) * ((b - a) / ((num : ℝ) - 1))

/-- Pointwise value of `linspaceIncl a b num` at a position `j < num`. -/
noncomputable def rampAt (a b : ℝ) (num : ℕ) (j : ℕ) : ℝ :=
  if num = 1 then a else a + (j : ℝ) * ((b - a) / ((num : ℝ) - 1))

/-- Source line `num_samples = int(sample_rate * duration)`. -/
noncomputable def numSamples (sample_rate duration : ℝ) : ℤ :=
  pyInt (sample_rate * duration)

/-- Source line `fade_samples = int(sample_rate * fade_duration)`. -/
noncomputable def fadeSamplesZ (sample_rate fade_duration : ℝ) : ℤ :=
  pyInt (sample_rate * fade_duration)

/-- Source line `audio = np.sin(2 * np.pi * frequency * t)` over the `N`
time points. -/
noncomputable def rawAudio (frequency duration : ℝ) (N : ℕ) : List ℝ :=
  (linspaceEF duration N).map fun ti => Real.sin (2 * Real.pi * frequency * ti)

/-- The two in-place fade products: `audio[:F] *= np.linspace(0, 1, F)`
followed by `audio[-F:] *= np.linspace(1, 0, F)` (assuming `F` fits). -/
noncomputable def applyFades (audio : List ℝ) (F : ℕ) : List ℝ :=
  let a1 := List.zipWith (· * ·) (audio.take F) (linspaceIncl 0 1 F) ++ audio.drop F
  a1.take (a1.length - F) ++ List.zipWith (· * ·) (a1.drop (a1.length - F)) (linspaceIncl 1 0 F)

/-- The function `generate_tone(frequency, duration, sample_rate, fade_duration)`.
`none` models a numpy `ValueError` (negative sample count, or fade window
longer than the buffer so that the in-place product cannot broadcast). -/
noncomputable def generate_tone (frequency duration sample_rate fade_duration : ℝ) :
    Option (List ℤ) :=
  if numSamples sample_rate duration < 0 then none
  else
    let N := (numSamples sample_rate duration).toNat
    let audio := rawAudio frequency duration N
    let FZ := fadeSamplesZ sample_rate fade_duration
    if 0 < FZ then
      if (N : ℤ) < FZ then none
      else some ((applyFades audio FZ.toNat).map fun x => pyInt (x * 32767))
    else some (audio.map fun x => pyInt (x * 32767))

/-- Closed-form value of the sample the pipeline emits at index `i`. -/
noncomputable def sampleAt (frequency duration sample_rate fade_duration : ℝ) (i : ℕ) : ℤ :=
  let N := (numSamples sample_rate duration).toNat
  let F := (fadeSamplesZ sample_rate fade_duration).toNat
  let a := Real.sin (2 * Real.pi * frequency * ((i : ℝ) * (duration / N)))
  pyInt ((if i < F then a * rampAt 0 1 F i else a) *
    (if N - F ≤ i then rampAt 1 0 F (i - (N - F)) else 1) * 32767)

/-- A ToneSpec is valid (spec §3): positive frequency, duration and sample
rate, and a non-negative fade duration at most half the duration. -/
def ValidSpec (frequency duration sample_rate fade_duration : ℝ) : Prop :=
  0 < frequency ∧ 0 < duration ∧ 0 < sample_rate ∧
    0 ≤ fade_duration ∧ fade_duration ≤ duration / 2

lemma length_linspaceEF (stop : ℝ) (num : ℕ) : (linspaceEF stop num).length = num := by
  simp only [linspaceEF, List.length_map, List.length_range]

lemma getElem_linspaceEF (stop : ℝ) {num i : ℕ} (h : i < num) :
    (linspaceEF stop num).get ⟨i, by simpa [length_linspaceEF] using h⟩ = (i : ℝ) * (stop / num) := by
  simp only [linspaceEF, List.get_eq_getElem, List.getElem_map, List.getElem_range]

lemma length_linspaceIncl (a b : ℝ) (num : ℕ) : (linspaceIncl a b num).length = num := by
  by_cases h : num = 1
  · simp only [linspaceIncl, h, List.length_cons, List.length_nil, ite_true]
  · simp only [linspaceIncl, h, List.length_map, List.length_range, ite_false]

lemma getElem_linspaceIncl (a b : ℝ) {num j : ℕ} (h : j < num) :
    (linspaceIncl a b num).get ⟨j, by simpa [length_linspaceIncl] using h⟩ = rampAt a b num j := by
  by_cases h1 : num = 1
  · subst h1
    interval_cases j
    simp only [linspaceIncl, rampAt, if_true, List.get_eq_getElem, List.getElem_cons_zero,
      ite_true]
  · simp only [linspaceIncl, rampAt, h1, if_false, List.get_eq_getElem, List.getElem_map,
      List.getElem_range, ite_false]

lemma length_rawAudio (frequency duration : ℝ) (N : ℕ) :
    (rawAudio frequency duration N).length = N := by
  simp only [rawAudio, List.length_map, length_linspaceEF]

lemma getElem_rawAudio (frequency duration : ℝ) {N i : ℕ} (h : i < N) :
    (rawAudio frequency duration N).get ⟨i, by simpa [length_rawAudio] using h⟩ =
      Real.sin (2 * Real.pi * frequency * ((i : ℝ) * (duration / N))) := by
  simp only [rawAudio, linspaceEF, List.get_eq_getElem, List.getElem_map, List.getElem_range]

lemma length_fadeInSeg (l : List ℝ) (F : ℕ) (hF : F ≤ l.length) :
    (List.zipWith (· * ·) (l.take F) (linspaceIncl 0 1 F) ++ l.drop F).length = l.length := by
  simp only [List.length_append, List.length_zipWith, List.length_take, List.length_drop,
    length_linspaceIncl]
  omega

lemma getElem_fadeInSeg (l : List ℝ) (F : ℕ) (hF : F ≤ l.length) (i : ℕ) (hi : i < l.length) :
    (List.zipWith (· * ·) (l.take F) (linspaceIncl 0 1 F) ++ l.drop F).get
      ⟨i, by rw [length_fadeInSeg l F hF]; exact hi⟩ =
      if i < F then l.get ⟨i, hi⟩ * rampAt 0 1 F i else l.get ⟨i, hi⟩ := by
  have hz : (List.zipWith (· * ·) (l.take F) (linspaceIncl 0 1 F)).length = F := by
    simp only [List.length_zipWith, List.length_take, length_linspaceIncl]
    omega
  simp only [List.get_eq_getElem, Fin.val_mk]
  by_cases hiF : i < F
  · rw [if_pos hiF]
    rw [List.getElem_append_left (by rw [hz]; exact hiF)]
    rw [List.getElem_zipWith]
    rw [List.getElem_take]
    have := getElem_linspaceIncl 0 1 hiF
    simp only [List.get_eq_getElem, Fin.val_mk] at this
    rw [this]
  · rw [if_neg hiF]
    rw [List.getElem_append_right (by rw [hz]; omega)]
    simp only [List.getElem_drop]
    congr 1
    rw [hz]
    omega

lemma length_fadeOutSeg (l : List ℝ) (F : ℕ) (hF : F ≤ l.length) :
    (l.take (l.length - F) ++
      List.zipWith (· * ·) (l.drop (l.length - F)) (linspaceIncl 1 0 F)).length = l.length := by
  simp only [List.length_append, List.length_zipWith, List.length_take, List.length_drop,
    length_linspaceIncl]
  omega

lemma getElem_fadeOutSeg (l : List ℝ) (F : ℕ) (hF : F ≤ l.length) (i : ℕ) (hi : i < l.length) :
    (l.take (l.length - F) ++
      List.zipWith (· * ·) (l.drop (l.length - F)) (linspaceIncl 1 0 F)).get
      ⟨i, by rw [length_fadeOutSeg l F hF]; exact hi⟩ =
      if l.length - F ≤ i then l.get ⟨i, hi⟩ * rampAt 1 0 F (i - (l.length - F))
      else l.get ⟨i, hi⟩ := by
  have ht : (l.take (l.length - F)).length = l.length - F := by
    simp only [List.length_take]
    omega
  simp only [List.get_eq_getElem, Fin.val_mk]
  by_cases hiF : l.length - F ≤ i
  · rw [if_pos hiF]
    rw [List.getElem_append_right (by rw [ht]; omega)]
    simp only [List.getElem_zipWith, List.getElem_drop, ht]
    have hlt : i - (l.length - F) < F := by omega
    have := getElem_linspaceIncl 1 0 hlt
    simp only [List.get_eq_getElem, Fin.val_mk] at this
    rw [this]
    congr 2
    omega
  · rw [if_neg hiF]
    rw [List.getElem_append_left (by rw [ht]; omega)]
    simp only [List.getElem_take]

lemma pyInt_of_nonneg {x : ℝ} (h : 0 ≤ x) : pyInt x = ⌊x⌋ := by
  simp only [pyInt, h, ite_true]

lemma pyInt_of_neg {x : ℝ} (h : x < 0) : pyInt x = ⌈x⌉ := by
  simp only [pyInt, not_le.2 h, ite_false]

lemma pyInt_intCast (n : ℤ) : pyInt (n : ℝ) = n := by
  rcases le_or_lt 0 (n : ℝ) with h | h
  · rw [pyInt_of_nonneg h, Int.floor_intCast]
  · rw [pyInt_of_neg h, Int.ceil_intCast]

lemma pyInt_zero : pyInt 0 = 0 := by
  simpa using pyInt_intCast 0

/-- Master pointwise description of the pipeline: whenever the sample count
is non-negative and the fade window fits the buffer, `generate_tone`
succeeds and the sample at index `i` is `sampleAt` applied at `i`. -/
lemma generate_tone_eq (f d r fd : ℝ) (h0 : 0 ≤ numSamples r d)
    (hF : fadeSamplesZ r fd ≤ numSamples r d) :
    generate_tone f d r fd =
      some (List.ofFn fun i : Fin (numSamples r d).toNat => sampleAt f d r fd (i : ℕ)) := by
  have hNcast : (((numSamples r d).toNat : ℕ) : ℤ) = numSamples r d := Int.toNat_of_nonneg h0
  have hlenAudio : (rawAudio f d (numSamples r d).toNat).length = (numSamples r d).toNat :=
    length_rawAudio f d (numSamples r d).toNat
  by_cases hFpos : 0 < fadeSamplesZ r fd
  · have hFN : (fadeSamplesZ r fd).toNat ≤ (numSamples r d).toNat := Int.toNat_le_toNat hF
    have hnotlt : ¬((((numSamples r d).toNat : ℕ) : ℤ) < fadeSamplesZ r fd) := by
      rw [hNcast]
      exact not_lt.2 hF
    simp only [generate_tone, not_lt.2 h0, hFpos, hnotlt, ite_true, ite_false, if_true, if_false]
    congr 1
    have hFa : (fadeSamplesZ r fd).toNat ≤ (rawAudio f d (numSamples r d).toNat).length := by
      rw [hlenAudio]
      exact hFN
    have hlenA1 := length_fadeInSeg (rawAudio f d (numSamples r d).toNat)
      (fadeSamplesZ r fd).toNat hFa
    have hFa1 : (fadeSamplesZ r fd).toNat ≤
        (List.zipWith (· * ·) ((rawAudio f d (numSamples r d).toNat).take (fadeSamplesZ r fd).toNat)
          (linspaceIncl 0 1 (fadeSamplesZ r fd).toNat) ++
          (rawAudio f d (numSamples r d).toNat).drop (fadeSamplesZ r fd).toNat).length := by
      rw [hlenA1]
      exact hFa
    simp only [applyFades]
    apply List.ext_getElem
    · simp only [List.length_map, List.length_ofFn]
      rw [length_fadeOutSeg _ _ hFa1, hlenA1, hlenAudio]
    · intro i hi1 hi2
      have hiN : i < (numSamples r d).toNat := by
        simpa using hi2
      have hiA1 : i < (List.zipWith (· * ·)
          ((rawAudio f d (numSamples r d).toNat).take (fadeSamplesZ r fd).toNat)
          (linspaceIncl 0 1 (fadeSamplesZ r fd).toNat) ++
          (rawAudio f d (numSamples r d).toNat).drop (fadeSamplesZ r fd).toNat).length := by
        rw [hlenA1, hlenAudio]
        exact hiN
      have hiAudio : i < (rawAudio f d (numSamples r d).toNat).length := by
        rw [hlenAudio]
        exact hiN
      have hs := getElem_fadeOutSeg _ (fadeSamplesZ r fd).toNat hFa1 i hiA1
      have hp := getElem_fadeInSeg (rawAudio f d (numSamples r d).toNat)
        (fadeSamplesZ r fd).toNat hFa i hiAudio
      have ha := getElem_rawAudio f d hiN
      simp only [List.get_eq_getElem, Fin.val_mk] at hs hp ha
      simp only [List.getElem_map, List.getElem_ofFn, Fin.val_mk]
      rw [hs]
      simp only [hlenA1, hlenAudio]
      rw [hp, ha]
      simp only [sampleAt]
      split_ifs <;> first
      | rfl
      | (congr 1; ring)
  · simp only [generate_tone, not_lt.2 h0, hFpos, ite_true, ite_false, if_true, if_false]
    congr 1
    apply List.ext_getElem
    · simp only [List.length_map, List.length_ofFn, hlenAudio]
    · intro i hi1 hi2
      have hiN : i < (numSamples r d).toNat := by
        simpa using hi2
      have ha := getElem_rawAudio f d hiN
      simp only [List.get_eq_getElem, Fin.val_mk] at ha
      simp only [List.getElem_map, List.getElem_ofFn, Fin.val_mk]
      rw [ha]
      simp only [sampleAt, Int.toNat_of_nonpos (not_lt.1 hFpos), Nat.not_lt_zero,
        Nat.sub_zero, not_le.2 hiN, ite_false, if_false]
      congr 1
      ring

/-- A valid spec yields a non-negative sample count, a non-negative fade
count, and fade windows that together fit in the buffer (`2F ≤ N`). -/
lemma valid_bounds {f d r fd : ℝ} (h : ValidSpec f d r fd) :
    0 ≤ numSamples r d ∧ 0 ≤ fadeSamplesZ r fd ∧
      2 * fadeSamplesZ r fd ≤ numSamples r d := by
  obtain ⟨-, hd, hr, hfd0, hfd⟩ := h
  have hrd : (0:ℝ) ≤ r * d := le_of_lt (mul_pos hr hd)
  have hrfd : (0:ℝ) ≤ r * fd := mul_nonneg (le_of_lt hr) hfd0
  have h1 : numSamples r d = ⌊r * d⌋ := pyInt_of_nonneg hrd
  have h2 : fadeSamplesZ r fd = ⌊r * fd⌋ := pyInt_of_nonneg hrfd
  refine ⟨?_, ?_, ?_⟩
  · rw [h1]
    exact Int.floor_nonneg.2 hrd
  · rw [h2]
    exact Int.floor_nonneg.2 hrfd
  · rw [h1, h2]
    apply Int.le_floor.2
    have hfl : (⌊r * fd⌋ : ℝ) ≤ r * fd := Int.floor_le _
    push_cast
    nlinarith

lemma rampAt_rise_nonneg {F j : ℕ} (hj : j < F) : 0 ≤ rampAt 0 1 F j := by
  by_cases h1 : F = 1
  · simp [rampAt, h1]
  · have hF2 : 2 ≤ F := by omega
    have hpos : (0:ℝ) < (F:ℝ) - 1 := by
      have : (2:ℝ) ≤ (F:ℝ) := by exact_mod_cast hF2
      linarith
    simp only [rampAt, h1, ite_false, zero_add, sub_zero]
    positivity

lemma rampAt_rise_le_one {F j : ℕ} (hj : j < F) : rampAt 0 1 F j ≤ 1 := by
  by_cases h1 : F = 1
  · simp [rampAt, h1]
  · have hF2 : 2 ≤ F := by omega
    have hpos : (0:ℝ) < (F:ℝ) - 1 := by
      have : (2:ℝ) ≤ (F:ℝ) := by exact_mod_cast hF2
      linarith
    have hjF : (j:ℝ) ≤ (F:ℝ) - 1 := by
      have : (j:ℝ) + 1 ≤ (F:ℝ) := by exact_mod_cast hj
      linarith
    simp only [rampAt, h1, ite_false, zero_add, sub_zero]
    rw [mul_one_div, div_le_one hpos]
    exact hjF

lemma rampAt_fall_nonneg {F j : ℕ} (hj : j < F) : 0 ≤ rampAt 1 0 F j := by
  by_cases h1 : F = 1
  · simp [rampAt, h1]
  · have hF2 : 2 ≤ F := by omega
    have hpos : (0:ℝ) < (F:ℝ) - 1 := by
      have : (2:ℝ) ≤ (F:ℝ) := by exact_mod_cast hF2
      linarith
    have hjF : (j:ℝ) ≤ (F:ℝ) - 1 := by
      have : (j:ℝ) + 1 ≤ (F:ℝ) := by exact_mod_cast hj
      linarith
    simp only [rampAt, h1, ite_false, zero_sub]
    have hdiv : (j:ℝ) / ((F:ℝ) - 1) ≤ 1 := by
      rw [div_le_one hpos]
      exact hjF
    have : (j:ℝ) * (-1 / ((F:ℝ) - 1)) = -((j:ℝ) / ((F:ℝ) - 1)) := by
      ring
    rw [this]
    linarith

lemma rampAt_fall_le_one {F j : ℕ} (hj : j < F) : rampAt 1 0 F j ≤ 1 := by
  by_cases h1 : F = 1
  · simp [rampAt, h1]
  · have hF2 : 2 ≤ F := by omega
    have hpos : (0:ℝ) < (F:ℝ) - 1 := by
      have : (2:ℝ) ≤ (F:ℝ) := by exact_mod_cast hF2
      linarith
    have hjnn : (0:ℝ) ≤ (j:ℝ) / ((F:ℝ) - 1) := by positivity
    simp only [rampAt, h1, ite_false, zero_sub]
    have : (j:ℝ) * (-1 / ((F:ℝ) - 1)) = -((j:ℝ) / ((F:ℝ) - 1)) := by
      ring
    rw [this]
    linarith

lemma le_pyInt {x : ℝ} {n : ℤ} (h : (n:ℝ) ≤ x) : n ≤ pyInt x := by
  rcases le_or_lt 0 x with hx | hx
  · rw [pyInt_of_nonneg hx]
    exact Int.le_floor.2 h
  · rw [pyInt_of_neg hx]
    calc n = ⌈(n:ℝ)⌉ := (Int.ceil_intCast n).symm
    _ ≤ ⌈x⌉ := Int.ceil_mono h

lemma pyInt_le {x : ℝ} {n : ℤ} (h : x ≤ (n:ℝ)) : pyInt x ≤ n := by
  rcases le_or_lt 0 x with hx | hx
  · rw [pyInt_of_nonneg hx]
    calc ⌊x⌋ ≤ ⌊(n:ℝ)⌋ := Int.floor_mono h
    _ = n := Int.floor_intCast n
  · rw [pyInt_of_neg hx]
    exact Int.ceil_le.2 h

/-- Attenuation: scaling the argument by a factor in `[0,1]` cannot grow
the truncated magnitude. -/
lemma abs_pyInt_mul_le {c x : ℝ} (h0 : 0 ≤ c) (h1 : c ≤ 1) : |pyInt (c * x)| ≤ |pyInt x| := by
  rcases le_or_lt 0 x with hx | hx
  · have hcx : 0 ≤ c * x := mul_nonneg h0 hx
    rw [pyInt_of_nonneg hcx, pyInt_of_nonneg hx]
    rw [abs_of_nonneg (Int.floor_nonneg.2 hcx), abs_of_nonneg (Int.floor_nonneg.2 hx)]
    exact Int.floor_mono (by nlinarith)
  · rcases le_or_lt 0 (c * x) with hcx | hcx
    · have hzero : c * x = 0 := le_antisymm (by nlinarith) hcx
      rw [hzero, pyInt_zero, abs_zero]
      exact abs_nonneg _
    · rw [pyInt_of_neg hcx, pyInt_of_neg hx]
      have hmono : ⌈x⌉ ≤ ⌈c * x⌉ := Int.ceil_mono (by nlinarith)
      have hc2 : ⌈c * x⌉ ≤ 0 := Int.ceil_le.2 (by push_cast; linarith)
      have hc3 : ⌈x⌉ ≤ 0 := Int.ceil_le.2 (by push_cast; linarith)
      rw [abs_of_nonpos hc2, abs_of_nonpos hc3]
      omega

/-- Pointwise `get?` form of the master lemma. -/
lemma generate_tone_get (f d r fd : ℝ) (h0 : 0 ≤ numSamples r d)
    (hF : fadeSamplesZ r fd ≤ numSamples r d) (i : ℕ) (hi : i < (numSamples r d).toNat) :
    (generate_tone f d r fd).bind (fun l => l.get? i) = some (sampleAt f d r fd i) := by
  rw [generate_tone_eq f d r fd h0 hF]
  simp only [Option.some_bind]
  rw [List.get?_eq_get (by rw [List.length_ofFn]; exact hi)]
  congr 1
  rw [List.get_ofFn]
  simp only [Fin.coe_cast, Fin.val_mk]

/-- Length form of the master lemma. -/
lemma generate_tone_length (f d r fd : ℝ) (h0 : 0 ≤ numSamples r d)
    (hF : fadeSamplesZ r fd ≤ numSamples r d) :
    (generate_tone f d r fd).map List.length = some (numSamples r d).toNat := by
  rw [generate_tone_eq f d r fd h0 hF]
  simp [List.length_ofFn]

lemma pyInt_eq_intCast_of_eq {x : ℝ} {n : ℤ} (h : x = (n:ℝ)) : pyInt x = n := by
  rw [h]
  exact pyInt_intCast n

lemma pyInt_eq_of_bounds {x : ℝ} {n : ℤ} (h0 : 0 ≤ x) (h1 : (n:ℝ) ≤ x) (h2 : x < (n:ℝ) + 1) :
    pyInt x = n := by
  rw [pyInt_of_nonneg h0, Int.floor_eq_iff]
  exact ⟨h1, h2⟩

lemma numSamples_4_1 : numSamples 4 1 = 4 :=
  pyInt_eq_intCast_of_eq (by norm_num)

lemma numSamples_8_1 : numSamples 8 1 = 8 :=
  pyInt_eq_intCast_of_eq (by norm_num)

lemma numSamples_1_1 : numSamples 1 1 = 1 :=
  pyInt_eq_intCast_of_eq (by norm_num)

lemma numSamples_2_5q : numSamples 2 (5/4) = 2 :=
  pyInt_eq_of_bounds (by norm_num) (by norm_num) (by norm_num)

lemma fadeSamplesZ_zero (r : ℝ) : fadeSamplesZ r 0 = 0 := by
  unfold fadeSamplesZ
  rw [mul_zero]
  exact pyInt_zero

lemma fadeSamplesZ_4_q : fadeSamplesZ 4 (1/4) = 1 :=
  pyInt_eq_intCast_of_eq (by norm_num)

lemma fadeSamplesZ_4_1 : fadeSamplesZ 4 1 = 4 :=
  pyInt_eq_intCast_of_eq (by norm_num)

lemma fadeSamplesZ_4_3q : fadeSamplesZ 4 (3/4) = 3 :=
  pyInt_eq_intCast_of_eq (by norm_num)

lemma fadeSamplesZ_4_h : fadeSamplesZ 4 (1/2) = 2 :=
  pyInt_eq_intCast_of_eq (by norm_num)

lemma sampleAt_A3 : sampleAt 1 1 4 (1/4) 3 = -32767 := by
  simp only [sampleAt, numSamples_4_1, fadeSamplesZ_4_q,
    show ((4:ℤ)).toNat = 4 from rfl, show ((1:ℤ)).toNat = 1 from rfl]
  rw [if_neg (by norm_num), if_pos (by norm_num)]
  have h1 : rampAt 1 0 1 (3 - (4 - 1)) = 1 := by
    simp [rampAt]
  rw [h1]
  have h2 : 2 * Real.pi * 1 * ((3:ℕ) * ((1:ℝ) / (4:ℕ))) = Real.pi / 2 + Real.pi := by
    push_cast
    ring
  rw [h2, Real.sin_add_pi, Real.sin_pi_div_two]
  exact pyInt_eq_intCast_of_eq (by norm_num)

lemma sqrt_two_lb : (1.41421 : ℝ) ≤ Real.sqrt 2 := by
  nlinarith [Real.sq_sqrt (show (0:ℝ) ≤ 2 by norm_num), Real.sqrt_nonneg 2]

lemma sqrt_two_ub : Real.sqrt 2 ≤ 1.41422 := by
  nlinarith [Real.sq_sqrt (show (0:ℝ) ≤ 2 by norm_num), Real.sqrt_nonneg 2]

lemma sampleAt_C1i : sampleAt 1 1 8 0 1 = 23169 := by
  simp only [sampleAt, numSamples_8_1, fadeSamplesZ_zero,
    show ((8:ℤ)).toNat = 8 from rfl, Int.toNat_zero]
  rw [if_neg (by norm_num), if_neg (by norm_num)]
  have h2 : 2 * Real.pi * 1 * ((1:ℕ) * ((1:ℝ) / (8:ℕ))) = Real.pi / 4 := by
    push_cast
    ring
  rw [h2, Real.sin_pi_div_four]
  apply pyInt_eq_of_bounds
  · positivity
  · push_cast
    nlinarith [sqrt_two_lb]
  · push_cast
    nlinarith [sqrt_two_ub]

lemma sampleAt_C4i : sampleAt 1 (5/4) 2 0 1 = -23169 := by
  simp only [sampleAt, numSamples_2_5q, fadeSamplesZ_zero,
    show ((2:ℤ)).toNat = 2 from rfl, Int.toNat_zero]
  rw [if_neg (by norm_num), if_neg (by norm_num)]
  have h2 : 2 * Real.pi * 1 * ((1:ℕ) * ((5:ℝ)/4 / (2:ℕ))) = Real.pi / 4 + Real.pi := by
    push_cast
    ring
  rw [h2, Real.sin_add_pi, Real.sin_pi_div_four]
  have hneg : -(Real.sqrt 2 / 2) * 1 * 32767 < 0 := by
    nlinarith [sqrt_two_lb]
  rw [pyInt_of_neg hneg, Int.ceil_eq_iff]
  constructor
  · push_cast
    nlinarith [sqrt_two_lb, sqrt_two_ub]
  · push_cast
    nlinarith [sqrt_two_lb, sqrt_two_ub]

lemma sampleAt_C9i : sampleAt 1 1 4 (3/4) 1 = 16383 := by
  simp only [sampleAt, numSamples_4_1, fadeSamplesZ_4_3q,
    show ((4:ℤ)).toNat = 4 from rfl, show ((3:ℤ)).toNat = 3 from rfl]
  rw [if_pos (by norm_num), if_pos (by norm_num)]
  have h2 : 2 * Real.pi * 1 * ((1:ℕ) * ((1:ℝ) / (4:ℕ))) = Real.pi / 2 := by
    push_cast
    ring
  rw [h2, Real.sin_pi_div_two]
  have hr1 : rampAt 0 1 3 1 = 1 / 2 := by
    simp [rampAt]
    norm_num
  have hr2 : rampAt 1 0 3 (1 - (4 - 3)) = 1 := by
    simp [rampAt]
  rw [hr1, hr2]
  apply pyInt_eq_of_bounds <;> norm_num

lemma sampleAt_C8v : sampleAt 1 1 4 (1/2) 1 = 32767 := by
  simp only [sampleAt, numSamples_4_1, fadeSamplesZ_4_h,
    show ((4:ℤ)).toNat = 4 from rfl, show ((2:ℤ)).toNat = 2 from rfl]
  rw [if_pos (by norm_num), if_neg (by norm_num)]
  have h2 : 2 * Real.pi * 1 * ((1:ℕ) * ((1:ℝ) / (4:ℕ))) = Real.pi / 2 := by
    push_cast
    ring
  rw [h2, Real.sin_pi_div_two]
  have hr1 : rampAt 0 1 2 1 = 1 := by
    simp [rampAt]
    norm_num
  rw [hr1]
  exact pyInt_eq_intCast_of_eq (by norm_num)

lemma sampleAt_C8w : sampleAt 1 1 4 0 1 = 32767 := by
  simp only [sampleAt, numSamples_4_1, fadeSamplesZ_zero,
    show ((4:ℤ)).toNat = 4 from rfl, Int.toNat_zero]
  rw [if_neg (by norm_num), if_neg (by norm_num)]
  have h2 : 2 * Real.pi * 1 * ((1:ℕ) * ((1:ℝ) / (4:ℕ))) = Real.pi / 2 := by
    push_cast
    ring
  rw [h2, Real.sin_pi_div_two]
  exact pyInt_eq_intCast_of_eq (by norm_num)

lemma sampleAt_H0 : sampleAt 1 1 1 0 0 = 0 := by
  simp only [sampleAt, numSamples_1_1, fadeSamplesZ_zero,
    show ((1:ℤ)).toNat = 1 from rfl, Int.toNat_zero]
  rw [if_neg (by norm_num), if_neg (by norm_num)]
  have h2 : 2 * Real.pi * 1 * ((0:ℕ) * ((1:ℝ) / (1:ℕ))) = 0 := by
    push_cast
    ring
  rw [h2, Real.sin_zero]
  rw [show (0:ℝ) * 1 * 32767 = 0 by ring]
  exact pyInt_zero

lemma gen111 : generate_tone 1 1 1 0 = some [0] := by
  rw [generate_tone_eq 1 1 1 0 (by rw [numSamples_1_1]; norm_num)
    (by rw [numSamples_1_1, fadeSamplesZ_zero]; norm_num)]
  congr 1
  simp only [numSamples_1_1, show ((1:ℤ)).toNat = 1 from rfl]
  rw [List.ofFn_succ, List.ofFn_zero]
  simp [sampleAt_H0]

/-- Claim C1, counterexample: at frequency 1 Hz, duration 1 s, sample rate 8 Hz,
no fade, the emitted sample at index 1 is 23169, while the nearest integer
to the amplitude times 32767 is 23170.  The code truncates toward zero
(numpy `astype(np.int16)`), it does not round to nearest. -/
theorem C1_cex :
    (generate_tone 1 1 8 0).bind (fun l => l.get? 1) = some 23169 ∧
      round (Real.sin (2 * Real.pi * 1 * ((1:ℝ) * (1 / 8))) * 32767) = 23170 ∧
      (23169 : ℤ) ≠ 23170 := by
  refine ⟨?_, ?_, by decide⟩
  · rw [generate_tone_get 1 1 8 0 (by rw [numSamples_8_1]; decide)
      (by rw [numSamples_8_1, fadeSamplesZ_zero]; decide) 1
      (by rw [numSamples_8_1]; decide)]
    rw [sampleAt_C1i]
  · have h2 : Real.sin (2 * Real.pi * 1 * ((1:ℝ) * (1 / 8))) = Real.sqrt 2 / 2 := by
      rw [show 2 * Real.pi * 1 * ((1:ℝ) * (1 / 8)) = Real.pi / 4 by ring,
        Real.sin_pi_div_four]
    rw [h2, round_eq, Int.floor_eq_iff]
    constructor
    · push_cast
      nlinarith [sqrt_two_lb, sqrt_two_ub]
    · push_cast
      nlinarith [sqrt_two_lb, sqrt_two_ub]

/-- Claim C1, amended: for every valid ToneSpec the emitted int16 value at index
i equals the faded amplitude times 32767 truncated TOWARD ZERO (the
semantics of numpy `astype(np.int16)`), not rounded to nearest. -/
theorem C1_amended (f d r fd : ℝ) (h : ValidSpec f d r fd) (i : ℕ)
    (hi : i < (numSamples r d).toNat) :
    (generate_tone f d r fd).bind (fun l => l.get? i) = some (sampleAt f d r fd i) := by
  obtain ⟨h0, hF0, h2F⟩ := valid_bounds h
  exact generate_tone_get f d r fd h0 (by omega) i hi

/-- Claim C1, witness for the amended theorem at frequency 1 Hz, duration 1 s,
sample rate 8 Hz, no fade, index 1. -/
theorem C1_amended_w : (generate_tone 1 1 8 0).bind (fun l => l.get? 1) = some 23169 := by
  rw [C1_amended 1 1 8 0 (by norm_num [ValidSpec]) 1 (by rw [numSamples_8_1]; decide)]
  rw [sampleAt_C1i]

/-- Claim C2, counterexample: frequency 1 Hz, duration 1 s, sample rate 4 Hz,
fade 1 s gives N = 4 < 2F = 8, and `generate_tone` does not fail: it
returns a buffer. -/
theorem C2_cex :
    numSamples 4 1 < 2 * fadeSamplesZ 4 1 ∧ (generate_tone 1 1 4 1).isSome = true := by
  constructor
  · rw [numSamples_4_1, fadeSamplesZ_4_1]
    decide
  · rw [generate_tone_eq 1 1 4 1 (by rw [numSamples_4_1]; decide)
      (by rw [numSamples_4_1, fadeSamplesZ_4_1])]
    rfl

/-- Claim C2, amended: `generate_tone` performs no InvalidSpec validation.
Whenever the sample count is non-negative and the fade count fits the
buffer (`F ≤ N` — including every overlap case `N < 2F ≤ 2N`), it returns
a length-N buffer instead of raising. -/
theorem C2_amended (f d r fd : ℝ) (h0 : 0 ≤ numSamples r d)
    (hF : fadeSamplesZ r fd ≤ numSamples r d) :
    ∃ l, generate_tone f d r fd = some l ∧ l.length = (numSamples r d).toNat := by
  refine ⟨_, generate_tone_eq f d r fd h0 hF, ?_⟩
  rw [List.length_ofFn]

/-- Claim C2, witness for the amended theorem at the overlapping spec
(1 Hz, 1 s, 4 Hz, fade 1 s). -/
theorem C2_amended_w : (generate_tone 1 1 4 1).map List.length = some 4 := by
  obtain ⟨l, hl, hlen⟩ := C2_amended 1 1 4 1 (by rw [numSamples_4_1]; decide)
    (by rw [numSamples_4_1, fadeSamplesZ_4_1])
  rw [hl]
  rw [numSamples_4_1] at hlen
  simp [hlen]

/-- Claim C3, counterexample: at (1 Hz, 1 s, 4 Hz, fade 0.25 s) the fade count is
F = 1 and the final sample is -32767, not 0: for F = 1 numpy
`linspace(1, 0, 1)` is `[1]`, so the factor applied to the final sample is
1, not the 0 the claim asserts. -/
theorem C3_cex :
    fadeSamplesZ 4 (1/4) = 1 ∧
      (generate_tone 1 1 4 (1/4)).bind (fun l => l.get? 3) = some (-32767) ∧
      (-32767 : ℤ) ≠ 0 := by
  refine ⟨fadeSamplesZ_4_q, ?_, by decide⟩
  rw [generate_tone_get 1 1 4 (1/4) (by rw [numSamples_4_1]; decide)
    (by rw [numSamples_4_1, fadeSamplesZ_4_q]; decide) 3 (by rw [numSamples_4_1]; decide)]
  rw [sampleAt_A3]

/-- Claim C3, amended: for every valid ToneSpec with F > 0, every emitted sample
follows `sampleAt` (first F indices multiplied by the rising ramp, last F
by the falling ramp); for F ≥ 2 the rising ramp is j/(F-1) from 0 to 1 and
the falling ramp is 1 - j/(F-1) from 1 down to 0; for F = 1 the single
rising value is 0 but the single falling value is 1 (not 0). -/
theorem C3_amended (f d r fd : ℝ) (h : ValidSpec f d r fd)
    (hFpos : 0 < fadeSamplesZ r fd) :
    (∀ i : ℕ, i < (numSamples r d).toNat →
      (generate_tone f d r fd).bind (fun l => l.get? i) = some (sampleAt f d r fd i)) ∧
    (2 ≤ (fadeSamplesZ r fd).toNat →
      (∀ j : ℕ, j < (fadeSamplesZ r fd).toNat →
        rampAt 0 1 (fadeSamplesZ r fd).toNat j =
          (j : ℝ) / (((fadeSamplesZ r fd).toNat : ℝ) - 1) ∧
        rampAt 1 0 (fadeSamplesZ r fd).toNat j =
          1 - (j : ℝ) / (((fadeSamplesZ r fd).toNat : ℝ) - 1)) ∧
      rampAt 0 1 (fadeSamplesZ r fd).toNat 0 = 0 ∧
      rampAt 0 1 (fadeSamplesZ r fd).toNat ((fadeSamplesZ r fd).toNat - 1) = 1 ∧
      rampAt 1 0 (fadeSamplesZ r fd).toNat ((fadeSamplesZ r fd).toNat - 1) = 0) ∧
    ((fadeSamplesZ r fd).toNat = 1 →
      rampAt 0 1 1 0 = 0 ∧ rampAt 1 0 1 0 = 1) := by
  obtain ⟨h0, hF0, h2F⟩ := valid_bounds h
  refine ⟨?_, ?_, ?_⟩
  · intro i hi
    exact generate_tone_get f d r fd h0 (by omega) i hi
  · intro hF2
    have hne : (fadeSamplesZ r fd).toNat ≠ 1 := by omega
    have hcast : (2:ℝ) ≤ ((fadeSamplesZ r fd).toNat : ℝ) := by exact_mod_cast hF2
    have hden : ((fadeSamplesZ r fd).toNat : ℝ) - 1 ≠ 0 := by linarith
    refine ⟨?_, ?_, ?_, ?_⟩
    · intro j hj
      constructor
      · simp only [rampAt, hne, ite_false]
        ring
      · simp only [rampAt, hne, ite_false]
        field_simp
        ring
    · simp only [rampAt, hne, ite_false]
      ring
    · simp only [rampAt, hne, ite_false]
      have hsub : (((fadeSamplesZ r fd).toNat - 1 : ℕ) : ℝ) =
          ((fadeSamplesZ r fd).toNat : ℝ) - 1 := by
        have : 1 ≤ (fadeSamplesZ r fd).toNat := by omega
        push_cast [this]
        ring
      rw [hsub]
      field_simp
    · simp only [rampAt, hne, ite_false]
      have hsub : (((fadeSamplesZ r fd).toNat - 1 : ℕ) : ℝ) =
          ((fadeSamplesZ r fd).toNat : ℝ) - 1 := by
        have : 1 ≤ (fadeSamplesZ r fd).toNat := by omega
        push_cast [this]
        ring
      rw [hsub]
      field_simp
  · intro h1
    constructor
    · simp [rampAt]
    · simp [rampAt]

/-- Claim C3, witness for the amended theorem at (1 Hz, 1 s, 4 Hz, fade 0.5 s),
where F = 2: rise is `[0, 1]`, the final fall factor is 0, and sample 1 is
emitted per `sampleAt`. -/
theorem C3_amended_w :
    rampAt 0 1 2 0 = 0 ∧ rampAt 0 1 2 1 = 1 ∧ rampAt 1 0 2 1 = 0 ∧
      (generate_tone 1 1 4 (1/2)).bind (fun l => l.get? 1) = some 32767 := by
  obtain ⟨hp, hq, -⟩ := C3_amended 1 1 4 (1/2) (by norm_num [ValidSpec])
    (by rw [fadeSamplesZ_4_h]; decide)
  rw [fadeSamplesZ_4_h] at hq
  obtain ⟨-, h00, h11, hlast⟩ := hq (by decide)
  refine ⟨?_, ?_, ?_, ?_⟩
  · simpa using h00
  · simpa using h11
  · simpa using hlast
  · rw [numSamples_4_1] at hp
    rw [hp 1 (by decide), sampleAt_C8v]

/-- Claim C4, counterexample: at sample rate 2 Hz and duration 1.25 s we get
N = 2 and the time point at index 1 is 1·(1.25/2) = 5/8, not
1/sampleRate = 1/2.  The discrepancy is observable: the emitted sample at
index 1 is -23169, while a sine evaluated at the claimed time 1/2 would
quantize to 0. -/
theorem C4_cex :
    (linspaceEF (5/4) (numSamples 2 (5/4)).toNat).get
        ⟨1, by rw [length_linspaceEF, numSamples_2_5q]; decide⟩ = 5/8 ∧
      ((5:ℝ)/8) ≠ 1/2 ∧
      (generate_tone 1 (5/4) 2 0).bind (fun l => l.get? 1) = some (-23169) ∧
      pyInt (Real.sin (2 * Real.pi * 1 * ((1:ℝ)/2)) * 32767) = 0 := by
  refine ⟨?_, by norm_num, ?_, ?_⟩
  · have hN : (numSamples 2 (5/4)).toNat = 2 := by
      rw [numSamples_2_5q]
      decide
    have h2 : 1 < (numSamples 2 (5/4)).toNat := by
      rw [hN]
      decide
    have hv := getElem_linspaceEF (5/4) h2
    simp only [List.get_eq_getElem, Fin.val_mk] at hv ⊢
    rw [hv, hN]
    norm_num
  · rw [generate_tone_get 1 (5/4) 2 0 (by rw [numSamples_2_5q]; decide)
      (by rw [numSamples_2_5q, fadeSamplesZ_zero]; decide) 1 (by rw [numSamples_2_5q]; decide)]
    rw [sampleAt_C4i]
  · rw [show 2 * Real.pi * 1 * ((1:ℝ)/2) = Real.pi by ring, Real.sin_pi, zero_mul]
    exact pyInt_zero

/-- Claim C4, amended: the time point at index i is i × (durationSeconds / N)
(numpy `linspace(0, duration, N, endpoint=False)`); it equals
i / sampleRateHz exactly when sampleRateHz × durationSeconds is the
integer N. -/
theorem C4_amended (f d r fd : ℝ) (h : ValidSpec f d r fd) (i : ℕ)
    (hi : i < (numSamples r d).toNat) :
    (linspaceEF d (numSamples r d).toNat).get
        ⟨i, by rw [length_linspaceEF]; exact hi⟩ =
      (i : ℝ) * (d / ((numSamples r d).toNat : ℝ)) ∧
      (r * d = (((numSamples r d).toNat : ℕ) : ℝ) →
        (linspaceEF d (numSamples r d).toNat).get
          ⟨i, by rw [length_linspaceEF]; exact hi⟩ = (i : ℝ) / r) := by
  obtain ⟨-, hd, hr, -, -⟩ := h
  have hv := getElem_linspaceEF d hi
  simp only [List.get_eq_getElem, Fin.val_mk] at hv ⊢
  refine ⟨hv, ?_⟩
  intro hint
  rw [hv, ← hint]
  rw [show d / (r * d) = 1 / r by field_simp; ring]
  ring

/-- Claim C4, witness for the amended theorem at (1 Hz, 1 s, 4 Hz, no fade),
where 4 × 1 = N = 4 is exact, so the time point at index 1 is 1/4. -/
theorem C4_amended_w :
    (linspaceEF 1 (numSamples 4 1).toNat).get
      ⟨1, by rw [length_linspaceEF, numSamples_4_1]; decide⟩ = (1:ℝ) / 4 := by
  have h := (C4_amended 1 1 4 0 (by norm_num [ValidSpec]) 1
    (by rw [numSamples_4_1]; decide)).2
    (by rw [numSamples_4_1, show ((4:ℤ)).toNat = 4 from rfl]; norm_num)
  simpa using h

/-- Claim C5: for every valid ToneSpec the returned buffer has length exactly
⌊sampleRateHz × durationSeconds⌋. -/
theorem C5_length (f d r fd : ℝ) (h : ValidSpec f d r fd) :
    ∃ l, generate_tone f d r fd = some l ∧ (l.length : ℤ) = ⌊r * d⌋ := by
  obtain ⟨h0, hF0, h2F⟩ := valid_bounds h
  obtain ⟨-, hd, hr, -, -⟩ := h
  refine ⟨_, generate_tone_eq f d r fd h0 (by omega), ?_⟩
  rw [List.length_ofFn, Int.toNat_of_nonneg h0]
  exact pyInt_of_nonneg (le_of_lt (mul_pos hr hd))

/-- Claim C5, witness: at 440 Hz, 0.2 s, 44100 Hz, fade 0.01 s the buffer has
exactly 8820 samples. -/
theorem C5_length_w :
    (generate_tone 440 (1/5) 44100 (1/100)).map List.length = some 8820 := by
  obtain ⟨l, hl, hlen⟩ := C5_length 440 (1/5) 44100 (1/100) (by norm_num [ValidSpec])
  have h8 : ⌊(44100 : ℝ) * (1/5)⌋ = 8820 := by norm_num
  rw [h8] at hlen
  have hlen2 : l.length = 8820 := by exact_mod_cast hlen
  rw [hl]
  simp [hlen2]

/-- Claim C6: for every valid ToneSpec, every emitted sample lies in
[-32767, 32767]. -/
theorem C6_range (f d r fd : ℝ) (h : ValidSpec f d r fd) (l : List ℤ)
    (hl : generate_tone f d r fd = some l) (x : ℤ) (hx : x ∈ l) :
    -32767 ≤ x ∧ x ≤ 32767 := by
  obtain ⟨h0, hF0, h2F⟩ := valid_bounds h
  rw [generate_tone_eq f d r fd h0 (by omega)] at hl
  injection hl with hl
  subst hl
  rw [List.mem_ofFn] at hx
  obtain ⟨i, rfl⟩ := hx
  have hiN : (i : ℕ) < (numSamples r d).toNat := i.isLt
  have hFN : (fadeSamplesZ r fd).toNat ≤ (numSamples r d).toNat := by omega
  simp only [sampleAt]
  set A := if (i : ℕ) < (fadeSamplesZ r fd).toNat then
      Real.sin (2 * Real.pi * f * ((i : ℕ) * (d / ((numSamples r d).toNat : ℝ)))) *
        rampAt 0 1 (fadeSamplesZ r fd).toNat (i : ℕ)
    else Real.sin (2 * Real.pi * f * ((i : ℕ) * (d / ((numSamples r d).toNat : ℝ)))) with hA
  set B := if (numSamples r d).toNat - (fadeSamplesZ r fd).toNat ≤ (i : ℕ) then
      rampAt 1 0 (fadeSamplesZ r fd).toNat
        ((i : ℕ) - ((numSamples r d).toNat - (fadeSamplesZ r fd).toNat))
    else 1 with hB
  have hsin : |Real.sin (2 * Real.pi * f * ((i : ℕ) * (d / ((numSamples r d).toNat : ℝ))))| ≤ 1 :=
    abs_le.2 ⟨Real.neg_one_le_sin _, Real.sin_le_one _⟩
  have hAbound : |A| ≤ 1 := by
    rw [hA]
    split_ifs with hc
    · rw [abs_mul]
      have hr0 := rampAt_rise_nonneg hc
      have hr1 := rampAt_rise_le_one hc
      have : |rampAt 0 1 (fadeSamplesZ r fd).toNat (i : ℕ)| ≤ 1 := by
        rw [abs_of_nonneg hr0]
        exact hr1
      calc |Real.sin _| * |rampAt 0 1 (fadeSamplesZ r fd).toNat (i : ℕ)|
          ≤ 1 * 1 := mul_le_mul hsin this (abs_nonneg _) (by norm_num)
        _ = 1 := by norm_num
    · exact hsin
  have hBbound : |B| ≤ 1 := by
    rw [hB]
    split_ifs with hc
    · have hlt : (i : ℕ) - ((numSamples r d).toNat - (fadeSamplesZ r fd).toNat) <
          (fadeSamplesZ r fd).toNat := by omega
      have hf0 := rampAt_fall_nonneg hlt
      have hf1 := rampAt_fall_le_one hlt
      rw [abs_of_nonneg hf0]
      exact hf1
    · norm_num
  have habs : |A * B * 32767| ≤ (32767 : ℝ) := by
    rw [abs_mul, abs_mul]
    have hab : |A| * |B| ≤ 1 := by
      calc |A| * |B| ≤ 1 * 1 := mul_le_mul hAbound hBbound (abs_nonneg _) (by norm_num)
        _ = 1 := by norm_num
    rw [show |(32767:ℝ)| = 32767 by norm_num]
    nlinarith [abs_nonneg (A * B)]
  obtain ⟨hlow, hhigh⟩ := abs_le.1 habs
  constructor
  · exact le_pyInt (by push_cast; linarith)
  · exact pyInt_le (by push_cast; linarith)

/-- Claim C6, witness at (1 Hz, 1 s, 1 Hz, no fade): the single sample 0 is in
range. -/
theorem C6_range_w : -32767 ≤ (0:ℤ) ∧ (0:ℤ) ≤ 32767 :=
  C6_range 1 1 1 0 (by norm_num [ValidSpec]) [0] gen111 0 (by simp)

/-- Claim C7: `generate_tone` is deterministic and side-effect free — it is a
pure function, so identical inputs yield identical sample buffers. -/
theorem C7_deterministic (f d r fd f2 d2 r2 fd2 : ℝ) (h1 : f = f2) (h2 : d = d2)
    (h3 : r = r2) (h4 : fd = fd2) :
    generate_tone f d r fd = generate_tone f2 d2 r2 fd2 := by
  subst h1 h2 h3 h4
  rfl

/-- Claim C7, witness at the built-in style spec values. -/
theorem C7_deterministic_w : generate_tone 300 (1/5) 44100 (1/100) =
    generate_tone 300 (1/5) 44100 (1/100) :=
  C7_deterministic 300 (1/5) 44100 (1/100) 300 (1/5) 44100 (1/100) rfl rfl rfl rfl

/-- Claim C8: for every valid ToneSpec with fade count F > 0 and every fade-in
index i < F, the magnitude of the faded sample is at most the magnitude of
the sample the same spec produces at i with no fade (fade duration 0): the
envelope only attenuates. -/
theorem C8_attenuation (f d r fd : ℝ) (h : ValidSpec f d r fd)
    (hFpos : 0 < fadeSamplesZ r fd) (i : ℕ) (hiF : (i:ℤ) < fadeSamplesZ r fd)
    (v w : ℤ)
    (hv : (generate_tone f d r fd).bind (fun l => l.get? i) = some v)
    (hw : (generate_tone f d r 0).bind (fun l => l.get? i) = some w) :
    |v| ≤ |w| := by
  obtain ⟨h0, hF0, h2F⟩ := valid_bounds h
  have hiFn : i < (fadeSamplesZ r fd).toNat := by omega
  have hiN : i < (numSamples r d).toNat := by omega
  rw [generate_tone_get f d r fd h0 (by omega) i hiN] at hv
  rw [generate_tone_get f d r 0 h0 (by rw [fadeSamplesZ_zero]; omega) i hiN] at hw
  injection hv with hv
  injection hw with hw
  subst hv hw
  simp only [sampleAt, fadeSamplesZ_zero, Int.toNat_zero]
  rw [if_neg (Nat.not_lt_zero i),
    if_neg (show ¬((numSamples r d).toNat - 0 ≤ i) by omega)]
  rw [if_pos hiFn,
    if_neg (show ¬((numSamples r d).toNat - (fadeSamplesZ r fd).toNat ≤ i) by omega)]
  rw [show Real.sin (2 * Real.pi * f * ((i:ℝ) * (d / ((numSamples r d).toNat : ℝ)))) *
      rampAt 0 1 (fadeSamplesZ r fd).toNat i * 1 * 32767 =
      rampAt 0 1 (fadeSamplesZ r fd).toNat i *
        (Real.sin (2 * Real.pi * f * ((i:ℝ) * (d / ((numSamples r d).toNat : ℝ)))) * 1 * 32767)
      by ring]
  exact abs_pyInt_mul_le (rampAt_rise_nonneg hiFn) (rampAt_rise_le_one hiFn)

/-- Claim C8, witness at (1 Hz, 1 s, 4 Hz, fade 0.5 s), index 1: faded sample
32767, unfaded sample 32767. -/
theorem C8_attenuation_w : |(32767:ℤ)| ≤ |(32767:ℤ)| := by
  have h1 : (generate_tone 1 1 4 (1/2)).bind (fun l => l.get? 1) = some 32767 := by
    rw [generate_tone_get 1 1 4 (1/2) (by rw [numSamples_4_1]; decide)
      (by rw [numSamples_4_1, fadeSamplesZ_4_h]; decide) 1 (by rw [numSamples_4_1]; decide),
      sampleAt_C8v]
  have h2 : (generate_tone 1 1 4 0).bind (fun l => l.get? 1) = some 32767 := by
    rw [generate_tone_get 1 1 4 0 (by rw [numSamples_4_1]; decide)
      (by rw [numSamples_4_1, fadeSamplesZ_zero]; decide) 1 (by rw [numSamples_4_1]; decide),
      sampleAt_C8w]
  exact C8_attenuation 1 1 4 (1/2) (by norm_num [ValidSpec])
    (by rw [fadeSamplesZ_4_h]; decide) 1 (by rw [fadeSamplesZ_4_h]; decide)
    32767 32767 h1 h2

/-- Claim C9: when the fade windows overlap but each fits the buffer
(N/2 < F ≤ N), `generate_tone` does not fail: it returns a length-N buffer
and every index in the overlap region [N-F, F) carries the PRODUCT of the
rising and falling ramp factors. -/
theorem C9_overlap (f d r fd : ℝ) (h0 : 0 ≤ numSamples r d)
    (hFpos : 0 < fadeSamplesZ r fd) (hFN : fadeSamplesZ r fd ≤ numSamples r d)
    (hOv : numSamples r d < 2 * fadeSamplesZ r fd) :
    ∃ l, generate_tone f d r fd = some l ∧ l.length = (numSamples r d).toNat ∧
      ∀ i : ℕ, (numSamples r d).toNat - (fadeSamplesZ r fd).toNat ≤ i →
        i < (fadeSamplesZ r fd).toNat →
        l.get? i = some (pyInt
          (Real.sin (2 * Real.pi * f * ((i:ℝ) * (d / ((numSamples r d).toNat : ℝ)))) *
            rampAt 0 1 (fadeSamplesZ r fd).toNat i *
            rampAt 1 0 (fadeSamplesZ r fd).toNat
              (i - ((numSamples r d).toNat - (fadeSamplesZ r fd).toNat)) * 32767)) := by
  refine ⟨_, generate_tone_eq f d r fd h0 hFN, by rw [List.length_ofFn], ?_⟩
  intro i hlo hhi
  have hiN : i < (numSamples r d).toNat := by omega
  rw [List.get?_eq_get (by rw [List.length_ofFn]; exact hiN)]
  congr 1
  rw [List.get_ofFn]
  simp only [Fin.coe_cast, Fin.val_mk]
  simp only [sampleAt]
  rw [if_pos hhi, if_pos hlo]

/-- Claim C9, witness at (1 Hz, 1 s, 4 Hz, fade 0.75 s): N = 4, F = 3, overlap
region [1, 3); sample 1 is sin(π/2) × ramp-in 1/2 × ramp-out 1 → 16383. -/
theorem C9_overlap_w : (generate_tone 1 1 4 (3/4)).bind (fun l => l.get? 1) = some 16383 := by
  obtain ⟨l, hl, hlen, hsamp⟩ := C9_overlap 1 1 4 (3/4) (by rw [numSamples_4_1]; decide)
    (by rw [fadeSamplesZ_4_3q]; decide) (by rw [numSamples_4_1, fadeSamplesZ_4_3q]; decide)
    (by rw [numSamples_4_1, fadeSamplesZ_4_3q]; decide)
  have h1 := hsamp 1 (by rw [numSamples_4_1, fadeSamplesZ_4_3q]; decide)
    (by rw [fadeSamplesZ_4_3q]; decide)
  rw [hl]
  simp only [Option.some_bind]
  rw [h1]
  congr 1
  simp only [numSamples_4_1, fadeSamplesZ_4_3q,
    show ((4:ℤ)).toNat = 4 from rfl, show ((3:ℤ)).toNat = 3 from rfl]
  have h2 : 2 * Real.pi * 1 * ((1:ℕ) * ((1:ℝ) / (4:ℕ))) = Real.pi / 2 := by
    push_cast
    ring
  rw [h2, Real.sin_pi_div_two]
  have hr1 : rampAt 0 1 3 1 = 1 / 2 := by
    simp [rampAt]
    norm_num
  have hr2 : rampAt 1 0 3 (1 - (4 - 3)) = 1 := by
    simp [rampAt]
  rw [hr1, hr2]
  apply pyInt_eq_of_bounds <;> norm_num

/-- Claim C10: for every valid ToneSpec with at least one sample — including the
no-fade case F = 0 — the first emitted sample is exactly 0: the time point
is 0, the raw sine is 0, and fading and truncation both preserve 0. -/
theorem C10_first_sample (f d r fd : ℝ) (h : ValidSpec f d r fd)
    (hN : 1 ≤ numSamples r d) :
    (generate_tone f d r fd).bind (fun l => l.get? 0) = some 0 := by
  obtain ⟨h0, hF0, h2F⟩ := valid_bounds h
  rw [generate_tone_get f d r fd h0 (by omega) 0 (by omega)]
  congr 1
  simp only [sampleAt]
  rw [show 2 * Real.pi * f * ((0:ℕ) * (d / (((numSamples r d).toNat : ℕ) : ℝ))) = 0
    by push_cast; ring]
  rw [Real.sin_zero]
  split_ifs <;> exact (congrArg pyInt (by ring)).trans pyInt_zero

/-- Claim C10, witness at (1 Hz, 1 s, 1 Hz, no fade). -/
theorem C10_first_sample_w : (generate_tone 1 1 1 0).bind (fun l => l.get? 0) = some 0 :=
  C10_first_sample 1 1 1 0 (by norm_num [ValidSpec]) (by rw [numSamples_1_1])

end ToneGen
